import Mathlib

/-!
# Verification of the ClassType registry (torch/csrc/jit/script/class_type.cpp)

A shallow embedding of the class-type registry: a class type holds parallel
attribute sequences, parallel constant sequences, a method list, an optional
module parameter-slot list, and supports structural subtyping against
interface types.  Each definition mirrors the corresponding C++ function;
members that live in the (absent) header are modelled from the spec and say so
in their doc comments.
-/

set_option autoImplicit false

namespace ClassTypeSpec

/-- The kind tag of a type, mirroring `TypeKind` as used by
`type->kind()` checks in `addAttribute`. -/
inductive TyKind where
  | tensor
  | optionalKind
  | noneKind
  | intKind
  | floatKind
  | anyKind
  | classKind
  deriving DecidableEq, Repr

/-- A small universe of first-class types sufficient for the attribute-type
checks in `class_type.cpp`: tensor, `Optional[T]`, `NoneType`, a couple of
scalar types, the `Any` catch-all and named class types. -/
inductive Ty where
  | tensor
  | optional (elem : Ty)
  | noneTy
  | intTy
  | floatTy
  | anyTy
  | cls (name : String)
  deriving DecidableEq, Repr

/-- `Ty.kind` mirrors the C++ `type->kind()` accessor. -/
def Ty.kind : Ty → TyKind
  | .tensor => .tensor
  | .optional _ => .optionalKind
  | .noneTy => .noneKind
  | .intTy => .intKind
  | .floatTy => .floatKind
  | .anyTy => .anyKind
  | .cls _ => .classKind

/-- Modelled from the spec: `checkNoAny` (declared outside this file) rejects
an attribute whose declared type is the forbidden "Any"-style catch-all type.
Returns `true` when the type is acceptable for attribute storage. -/
def checkNoAnyOk (t : Ty) : Bool :=
  !(t.kind == TyKind.anyKind)

/-- Modelled from the spec: the generic type-subtyping rule used by
`refined_slots[i]->isSubtypeOf(attributeTypes_[i])` (defined outside this
file).  Reflexive; every type is a subtype of the `Any` catch-all; `NoneType`
is a subtype of any optional type. -/
def tySubtypeOf (t u : Ty) : Bool :=
  t == u || u == Ty.anyTy || (t == Ty.noneTy && u.kind == TyKind.optionalKind)

/-- Constant values stored on a class type (stand-in for `IValue`). -/
inductive IValue where
  | int (n : Int)
  | str (s : String)
  | boolVal (b : Bool)
  deriving DecidableEq, Repr

/-- A function schema: the comparable call-signature object of a method.
Its inner structure is irrelevant to this file; schema subtyping is an
external collaborator and is passed in as a parameter where needed. -/
structure FunctionSchema where
  name : String
  sig : Nat
  deriving DecidableEq, Repr

/-- A method descriptor (stand-in for `Function*`): exposes `name()` and
`getSchema()`.  Equality of two `Function` values models pointer equality. -/
structure Function where
  name : String
  schema : FunctionSchema
  deriving DecidableEq, Repr

/-- Errors raised by the mutators (`TORCH_CHECK` / `TORCH_INTERNAL_ASSERT`
failures), carrying the data the corresponding message interpolates. -/
inductive AddError where
  /-- `checkNotExist`: the name already denotes a constant (message shows the
  existing value). -/
  | nameConflictConstant (what name : String) (existingValue : IValue)
  /-- `checkNotExist`: the name already denotes an attribute (message shows
  the existing type). -/
  | nameConflictAttribute (what name : String) (existingType : Ty)
  /-- `checkNoAny` rejected the declared type. -/
  | typeRejectedAny (what name : String)
  /-- `TORCH_INTERNAL_ASSERT(is_module(), "adding a parameter to a non module")`. -/
  | notAModule
  /-- parameter type is not None, Tensor or Optional[Tensor]. -/
  | badParameterType (t : Ty)
  /-- `addMethod`: a method of that name already exists. -/
  | methodRedefinition (name : String)
  deriving DecidableEq, Repr

/-- The class-type aggregate.  `parameterSlots` is `some _` exactly when the
type was created module-flagged (the C++ `parameterSlots_` shared pointer is
allocated iff `is_module`). -/
structure ClassType where
  qualifiedName : Option String
  parameterSlots : Option (List Bool)
  attributeNames : List String
  attributeTypes : List Ty
  constantNames : List String
  constantValues : List IValue
  methods : List Function
  deriving DecidableEq, Repr

/-- Modelled from the spec: `is_module()` (header accessor) reports whether
the parameter-slot sequence was allocated at construction. -/
def ClassType.is_module (c : ClassType) : Bool :=
  c.parameterSlots.isSome

/-- Modelled from the spec: `numAttributes()` (header accessor) is the length
of the attribute sequence. -/
def ClassType.numAttributes (c : ClassType) : Nat :=
  c.attributeNames.length

/-- `ClassType::create` / the constructor: allocates `parameterSlots`
iff `is_module`.  (The compilation-unit back-reference carries no observable
data for the claims and is omitted.) -/
def ClassType.create (qualifiedName : Option String) (is_module : Bool) : ClassType :=
  { qualifiedName := qualifiedName
    parameterSlots := if is_module then some [] else none
    attributeNames := []
    attributeTypes := []
    constantNames := []
    constantValues := []
    methods := [] }

/-- The indexed scan of `checkNotExist`: walk two parallel sequences, return
the payload at the first position whose name matches. -/
def findConflict {α : Type} (name : String) : List String → List α → Option α
  | n :: ns, v :: vs => if name == n then some v else findConflict name ns vs
  | _, _ => none

/-- `ClassType::checkNotExist`: reject a name already present among the
constants (checked first) or the attributes. -/
def ClassType.checkNotExist (c : ClassType) (name what : String) : Except AddError Unit :=
  match findConflict name c.constantNames c.constantValues with
  | some v => .error (.nameConflictConstant what name v)
  | none =>
    match findConflict name c.attributeNames c.attributeTypes with
    | some t => .error (.nameConflictAttribute what name t)
    | none => .ok ()

/-- The parameter-type test of `addAttribute` lines 75-79: the type's kind is
Tensor, or Optional whose element kind is Tensor, or None. -/
def validParameterType (t : Ty) : Bool :=
  t.kind == TyKind.tensor ||
    (match t with
     | .optional elem => elem.kind == TyKind.tensor
     | _ => false) ||
    t.kind == TyKind.noneKind

/-- `ClassType::addAttribute`.  The result pairs the class type as left after
the call (a thrown `TORCH_CHECK` leaves any mutation already performed in
place, exactly as in the C++) with the returned slot or the error.  Note the
source appends to `attributeNames_` / `attributeTypes_` *before* the
`is_parameter` checks. -/
def ClassType.addAttribute (c : ClassType) (name : String) (type : Ty)
    (is_parameter : Bool) : ClassType × Except AddError Nat :=
  let what := if is_parameter then "parameter" else "attribute"
  match c.checkNotExist name what with
  | .error e => (c, .error e)
  | .ok _ =>
    if checkNoAnyOk type = false then
      (c, .error (.typeRejectedAny what name))
    else
      let slot := c.attributeNames.length
      let c1 : ClassType :=
        { c with
          attributeNames := c.attributeNames ++ [name]
          attributeTypes := c.attributeTypes ++ [type] }
      if is_parameter && !c1.is_module then
        (c1, .error .notAModule)
      else if is_parameter && !(validParameterType type) then
        (c1, .error (.badParameterType type))
      else if c1.is_module then
        ({ c1 with
           parameterSlots := c1.parameterSlots.map (fun ps => ps ++ [is_parameter]) },
         .ok slot)
      else
        (c1, .ok slot)

/-- Modelled from the spec: `getAttributeSlot` (header) looks up the slot of a
named attribute, failing when the name is absent. -/
def ClassType.getAttributeSlot (c : ClassType) (name : String) : Option Nat :=
  c.attributeNames.findIdx? (fun n => n == name)

/-- `ClassType::unsafeRemoveAttribute`: look up the slot, then erase that
index from every parallel attribute sequence.  `none` models the fatal lookup
failure (which precedes any mutation). -/
def ClassType.unsafeRemoveAttribute (c : ClassType) (name : String) : Option ClassType :=
  match c.getAttributeSlot name with
  | none => none
  | some slot =>
    some
      { c with
        attributeNames := c.attributeNames.eraseIdx slot
        attributeTypes := c.attributeTypes.eraseIdx slot
        parameterSlots :=
          if c.is_module then c.parameterSlots.map (fun ps => ps.eraseIdx slot)
          else c.parameterSlots }

/-- `ClassType::getMethod`: linear scan for the first method of that name,
`none` as the not-found sentinel. -/
def ClassType.getMethod (c : ClassType) (name : String) : Option Function :=
  c.methods.find? (fun m => name == m.name)

/-- `ClassType::addMethod`: reject a duplicate method name, else append. -/
def ClassType.addMethod (c : ClassType) (m : Function) : ClassType × Except AddError Unit :=
  match c.getMethod m.name with
  | some _ => (c, .error (.methodRedefinition m.name))
  | none => ({ c with methods := c.methods ++ [m] }, .ok ())

/-- `ClassType::addConstant`: uniqueness check, then append to both constant
sequences, returning the prior length as the slot. -/
def ClassType.addConstant (c : ClassType) (name : String) (value : IValue) :
    ClassType × Except AddError Nat :=
  match c.checkNotExist name "constant" with
  | .error e => (c, .error e)
  | .ok _ =>
    ({ c with
       constantNames := c.constantNames ++ [name]
       constantValues := c.constantValues ++ [value] },
     .ok c.constantNames.length)

/-- Modelled from the spec: `getConstantSlot` (header) looks up the slot of a
named constant, failing when the name is absent. -/
def ClassType.getConstantSlot (c : ClassType) (name : String) : Option Nat :=
  c.constantNames.findIdx? (fun n => n == name)

/-- `ClassType::unsafeRemoveConstant`: look up the slot, then erase that index
from both constant sequences. -/
def ClassType.unsafeRemoveConstant (c : ClassType) (name : String) : Option ClassType :=
  match c.getConstantSlot name with
  | none => none
  | some slot =>
    some
      { c with
        constantNames := c.constantNames.eraseIdx slot
        constantValues := c.constantValues.eraseIdx slot }

/-- An interface type: an ordered list of required method schemas and a
module-capability flag. -/
structure InterfaceType where
  name : String
  methodSchemas : List FunctionSchema
  is_module : Bool
  deriving DecidableEq, Repr

/-- One diagnostic written to the `why_not` sink of `isSubtypeOfExt`; each
constructor stands for the corresponding message in the source and carries the
data that message interpolates. -/
inductive Diag where
  /-- "... only ScriptModule class can be subtype of module interface." -/
  | notModuleInterface
  /-- "Class ... does not have method NAME but the interface does." -/
  | missingMethod (name : String)
  /-- "Method on class (1) is not compatible with interface (2)", showing
  both schemas. -/
  | incompatibleMethod (selfSchema requiredSchema : FunctionSchema)
  deriving DecidableEq, Repr

/-- Whether a diagnostic names the given required method. -/
def Diag.mentions (d : Diag) (methodName : String) : Bool :=
  match d with
  | .notModuleInterface => false
  | .missingMethod n => n == methodName
  | .incompatibleMethod _ req => req.name == methodName

/-- The schema-subtype check `getSchema().isSubtypeOf(schema, is_method, ..)`
is an external collaborator; every definition below takes it as the
`schemaSub` parameter. -/
abbrev SchemaSub : Type := FunctionSchema → FunctionSchema → Bool

/-- The diagnostic `isSubtypeOfExt` writes for a required schema that is not
satisfied: the missing-method message when no same-named method exists, else
the incompatible-signature message showing both schemas. -/
def mismatchDiag (c : ClassType) (schema : FunctionSchema) : Diag :=
  match c.getMethod schema.name with
  | none => .missingMethod schema.name
  | some m => .incompatibleMethod m.schema schema

/-- Classifies the mutator failures of `addAttribute` by whether they are
raised before any sequence append (`checkNotExist` / `checkNoAny`) or after
the appends (the `is_parameter` checks at lines 73-81 of the source). -/
def AddError.preAppend : AddError → Bool
  | .notAModule => false
  | .badParameterType _ => false
  | _ => true

/-- One required schema is satisfied: a same-named method exists and its
schema is a subtype of the required one. -/
def ClassType.requiredOk (c : ClassType) (schemaSub : SchemaSub)
    (schema : FunctionSchema) : Bool :=
  match c.getMethod schema.name with
  | none => false
  | some m => schemaSub m.schema schema

/-- The loop of `isSubtypeOfExt` over the interface's required schemas,
returning the boolean result together with the diagnostics written to the
sink (the source returns at the first mismatch). -/
def subtypeLoop (c : ClassType) (schemaSub : SchemaSub) :
    List FunctionSchema → Bool × List Diag
  | [] => (true, [])
  | schema :: rest =>
    match c.getMethod schema.name with
    | none => (false, [.missingMethod schema.name])
    | some m =>
      if schemaSub m.schema schema then subtypeLoop c schemaSub rest
      else (false, [.incompatibleMethod m.schema schema])

/-- `ClassType::isSubtypeOfExt` on an interface target: the module-flag rule,
then the per-required-method loop.  Returns the boolean result and the
diagnostics the sink accumulates. -/
def ClassType.isSubtypeOfExt (c : ClassType) (schemaSub : SchemaSub)
    (iface : InterfaceType) : Bool × List Diag :=
  if !c.is_module && iface.is_module then (false, [.notModuleInterface])
  else subtypeLoop c schemaSub iface.methodSchemas

/-- The attribute-rebuilding loop of `ClassType::refine`: for each slot,
assert the replacement is a subtype of the current type, then `addAttribute`
it onto the fresh type.  `none` models a fatal assertion or a thrown check. -/
def refineLoop (tySub : Ty → Ty → Bool) :
    List String → List Ty → List Ty → ClassType → Option ClassType
  | [], [], [], acc => some acc
  | n :: ns, t :: ts, r :: rs, acc =>
    if tySub r t then
      match acc.addAttribute n r false with
      | (acc1, .ok _) => refineLoop tySub ns ts rs acc1
      | (_, .error _) => none
    else none
  | _, _, _, _ => none

/-- The method-copying loop of `ClassType::refine`. -/
def addMethodsLoop : ClassType → List Function → Option ClassType
  | acc, [] => some acc
  | acc, m :: ms =>
    match acc.addMethod m with
    | (acc1, .ok _) => addMethodsLoop acc1 ms
    | (_, .error _) => none

/-- `ClassType::refine`: create a fresh type with the same qualified name
(`create` is called without the module flag, so the result is never
module-flagged), assert the slot counts match, rebuild each attribute with
its replacement type, then copy the methods over by reference.  `none` models
a fatal assertion failure. -/
def ClassType.refine (c : ClassType) (tySub : Ty → Ty → Bool) (ts : List Ty) :
    Option ClassType :=
  let ptr := ClassType.create c.qualifiedName false
  if c.numAttributes == ts.length then
    match refineLoop tySub c.attributeNames c.attributeTypes ts ptr with
    | none => none
    | some p => addMethodsLoop p c.methods
  else none

/-- A single mutation on a class type, for stating the after-every-mutation
invariants. -/
inductive Op where
  | addAttr (name : String) (ty : Ty) (isParam : Bool)
  | addConst (name : String) (v : IValue)
  | addMeth (f : Function)
  | removeAttr (name : String)
  | removeConst (name : String)
  deriving DecidableEq, Repr

/-- The class type as left after an operation, whether it succeeded or failed
(a failing removal precedes any mutation, so it leaves the type unchanged). -/
def applyOp (c : ClassType) : Op → ClassType
  | .addAttr n t p => (c.addAttribute n t p).1
  | .addConst n v => (c.addConstant n v).1
  | .addMeth f => (c.addMethod f).1
  | .removeAttr n => (c.unsafeRemoveAttribute n).getD c
  | .removeConst n => (c.unsafeRemoveConstant n).getD c

/-- When the class type is module-flagged, its parameter-slot sequence is
parallel to the attribute sequences. -/
def ClassType.slotsLenOk (c : ClassType) : Prop :=
  match c.parameterSlots with
  | none => True
  | some ps => ps.length = c.attributeNames.length

/-- The length invariants of the data model: the attribute sequences are
parallel (and `numAttributes` agrees), the parameter-slot sequence when
present is parallel to them, and the constant sequences are parallel. -/
def ClassType.lengthsOk (c : ClassType) : Prop :=
  c.numAttributes = c.attributeNames.length ∧
  c.attributeNames.length = c.attributeTypes.length ∧
  c.slotsLenOk ∧
  c.constantNames.length = c.constantValues.length

/-- The weaker pair of the invariants that survives even the partial-append
failure: names/types parallel, constants parallel. -/
def ClassType.namesTypesOk (c : ClassType) : Prop :=
  c.attributeNames.length = c.attributeTypes.length ∧
  c.constantNames.length = c.constantValues.length

/-- The one failure mode that appends to the attribute sequences but not to
`parameterSlots`: a module-flagged `addAttribute` whose parameter type fails
the Tensor / Optional[Tensor] / None check. -/
def opPartialFailure (c : ClassType) : Op → Bool
  | .addAttr n t p =>
    match (c.addAttribute n t p).2 with
    | .error (.badParameterType _) => true
    | _ => false
  | _ => false

/-! ## Helper lemmas -/

theorem findConflict_eq_none_of_not_mem {α : Type} (name : String) :
    ∀ (ns : List String) (vs : List α), name ∉ ns → findConflict name ns vs = none
  | [], vs, _ => by cases vs <;> rfl
  | n :: ns, [], _ => rfl
  | n :: ns, v :: vs, h => by
    simp only [List.mem_cons, not_or] at h
    simp only [findConflict, if_neg (by simpa using h.1 : ¬((name == n) = true))]
    exact findConflict_eq_none_of_not_mem name ns vs h.2

theorem findConflict_eq_some_mem {α : Type} {name : String} {v : α} :
    ∀ {ns : List String} {vs : List α}, findConflict name ns vs = some v →
      (name, v) ∈ ns.zip vs
  | [], vs, h => by cases vs <;> simp [findConflict] at h
  | n :: ns, [], h => by simp [findConflict] at h
  | n :: ns, w :: vs, h => by
    simp only [findConflict] at h
    split at h
    · rename_i hb
      cases h
      have : name = n := by simpa using hb
      subst this
      exact List.mem_cons_self _ _
    · exact List.mem_cons_of_mem _ (findConflict_eq_some_mem h)

theorem findConflict_eq_some_of_mem {α : Type} {name : String} :
    ∀ {ns : List String} {vs : List α}, ns.length = vs.length → name ∈ ns →
      ∃ v, findConflict name ns vs = some v ∧ (name, v) ∈ ns.zip vs
  | [], _, _, hm => absurd hm (List.not_mem_nil name)
  | n :: ns, [], hl, _ => by simp at hl
  | n :: ns, w :: vs, hl, hm => by
    by_cases he : name = n
    · subst he
      exact ⟨w, by simp [findConflict], by simp⟩
    · have hm2 : name ∈ ns := by
        rcases List.mem_cons.mp hm with h | h
        · exact absurd h he
        · exact h
      obtain ⟨v, hv, hmem⟩ :=
        findConflict_eq_some_of_mem (by simpa using hl) hm2
      refine ⟨v, ?_, List.mem_cons_of_mem _ hmem⟩
      simpa [findConflict, he] using hv

theorem checkNotExist_ok (c : ClassType) (name what : String)
    (hc : name ∉ c.constantNames) (ha : name ∉ c.attributeNames) :
    c.checkNotExist name what = .ok () := by
  unfold ClassType.checkNotExist
  rw [findConflict_eq_none_of_not_mem _ _ _ hc,
    findConflict_eq_none_of_not_mem _ _ _ ha]

theorem getMethod_eq_none_iff (c : ClassType) (name : String) :
    c.getMethod name = none ↔ ∀ m ∈ c.methods, m.name ≠ name := by
  rw [ClassType.getMethod, List.find?_eq_none]
  simp only [beq_iff_eq]
  exact ⟨fun h m hm he => h m hm he.symm, fun h m hm he => h m hm he.symm⟩

theorem subtypeLoop_fst (c : ClassType) (schemaSub : SchemaSub) :
    ∀ L : List FunctionSchema,
      (subtypeLoop c schemaSub L).1 = L.all (c.requiredOk schemaSub)
  | [] => rfl
  | s :: rest => by
    simp only [subtypeLoop, List.all_cons, ClassType.requiredOk]
    cases hg : c.getMethod s.name with
    | none => simp
    | some m =>
      cases hs : schemaSub m.schema s with
      | false => simp [hs]
      | true => simp [hs, subtypeLoop_fst c schemaSub rest]

theorem subtypeLoop_snd (c : ClassType) (schemaSub : SchemaSub) :
    ∀ L : List FunctionSchema,
      (subtypeLoop c schemaSub L).2 =
        (Option.map (mismatchDiag c)
          (L.find? (fun s => !(c.requiredOk schemaSub s)))).toList
  | [] => rfl
  | s :: rest => by
    cases hg : c.getMethod s.name with
    | none =>
      have hr : c.requiredOk schemaSub s = false := by
        simp [ClassType.requiredOk, hg]
      rw [List.find?_cons_of_pos _ (by simp [hr])]
      simp only [subtypeLoop, hg]
      simp [mismatchDiag, hg]
    | some m =>
      cases hs : schemaSub m.schema s with
      | false =>
        have hr : c.requiredOk schemaSub s = false := by
          simp [ClassType.requiredOk, hg, hs]
        rw [List.find?_cons_of_pos _ (by simp [hr])]
        simp only [subtypeLoop, hg, hs]
        simp [mismatchDiag, hg]
      | true =>
        have hr : c.requiredOk schemaSub s = true := by
          simp [ClassType.requiredOk, hg, hs]
        rw [List.find?_cons_of_neg _ (by simp [hr])]
        simp only [subtypeLoop, hg, hs]
        simp [subtypeLoop_snd c schemaSub rest]

theorem checkNotExist_error_preAppend (c : ClassType) (name what : String)
    (e : AddError) (h : c.checkNotExist name what = .error e) :
    e.preAppend = true := by
  unfold ClassType.checkNotExist at h
  split at h
  · cases h; rfl
  · split at h
    · cases h; rfl
    · simp at h

theorem addConstant_ok (c : ClassType) (n : String) (v : IValue)
    (hc : n ∉ c.constantNames) (ha : n ∉ c.attributeNames) :
    c.addConstant n v =
      ({ c with constantNames := c.constantNames ++ [n],
                constantValues := c.constantValues ++ [v] },
       .ok c.constantNames.length) := by
  simp [ClassType.addConstant, checkNotExist_ok c n "constant" hc ha]

theorem addConstant_error_state (c : ClassType) (n : String) (v : IValue)
    (e : AddError) (h : (c.addConstant n v).2 = .error e) :
    (c.addConstant n v).1 = c := by
  unfold ClassType.addConstant at h ⊢
  cases hk : c.checkNotExist n "constant" with
  | error e1 => simp [hk]
  | ok u => cases u; simp [hk] at h

theorem addMethod_ok (c : ClassType) (m : Function)
    (h : c.getMethod m.name = none) :
    c.addMethod m = ({ c with methods := c.methods ++ [m] }, .ok ()) := by
  simp [ClassType.addMethod, h]

theorem addMethod_error_state (c : ClassType) (m : Function) (e : AddError)
    (h : (c.addMethod m).2 = .error e) : (c.addMethod m).1 = c := by
  unfold ClassType.addMethod at h ⊢
  cases hg : c.getMethod m.name with
  | none => simp [hg] at h
  | some f => simp [hg]

/-- Full characterization of `addAttribute`: it either fails before any
append and leaves the type unchanged, or fails after appending to the two
attribute sequences, or succeeds appending to all parallel sequences and
returns the prior length. -/
theorem addAttribute_pair (c : ClassType) (n : String) (t : Ty) (p : Bool) :
    (∃ e, AddError.preAppend e = true ∧ c.addAttribute n t p = (c, .error e)) ∨
    (∃ e, AddError.preAppend e = false ∧
      ((e = AddError.notAModule ∧ c.is_module = false) ∨
        e = AddError.badParameterType t) ∧
      c.addAttribute n t p =
        ({ c with attributeNames := c.attributeNames ++ [n],
                  attributeTypes := c.attributeTypes ++ [t] }, .error e)) ∨
    c.addAttribute n t p =
      ({ c with attributeNames := c.attributeNames ++ [n],
                attributeTypes := c.attributeTypes ++ [t],
                parameterSlots := c.parameterSlots.map (fun ps => ps ++ [p]) },
       .ok c.attributeNames.length) := by
  cases hk : c.checkNotExist n (if p then "parameter" else "attribute") with
  | error e1 =>
    exact .inl ⟨e1, checkNotExist_error_preAppend c _ _ _ hk,
      by simp [ClassType.addAttribute, hk]⟩
  | ok u =>
    cases u
    by_cases hany : checkNoAnyOk t = false
    · exact .inl ⟨AddError.typeRejectedAny
        (if p then "parameter" else "attribute") n, rfl,
        by simp [ClassType.addAttribute, hk, hany]⟩
    · have hany2 : checkNoAnyOk t = true := by
        revert hany; cases checkNoAnyOk t <;> simp
      cases hps : c.parameterSlots with
      | none =>
        cases p with
        | false =>
          refine .inr (.inr ?_)
          simp only [if_neg Bool.false_ne_true] at hk
          simp [ClassType.addAttribute, hk, hany2, ClassType.is_module, hps]
        | true =>
          refine .inr (.inl ⟨AddError.notAModule, rfl,
            Or.inl ⟨rfl, by simp [ClassType.is_module, hps]⟩, ?_⟩)
          simp at hk
          simp [ClassType.addAttribute, hk, hany2, ClassType.is_module, hps]
      | some ps =>
        cases p with
        | false =>
          refine .inr (.inr ?_)
          simp only [if_neg Bool.false_ne_true] at hk
          simp [ClassType.addAttribute, hk, hany2, ClassType.is_module, hps]
        | true =>
          by_cases hv : validParameterType t = true
          · refine .inr (.inr ?_)
            simp at hk
            simp [ClassType.addAttribute, hk, hany2, ClassType.is_module, hps, hv]
          · refine .inr (.inl ⟨AddError.badParameterType t, rfl, Or.inr rfl, ?_⟩)
            simp at hk
            simp [ClassType.addAttribute, hk, hany2, ClassType.is_module, hps, hv]

theorem addAttribute_ok (c : ClassType) (n : String) (t : Ty) (p : Bool)
    (hk : c.checkNotExist n (if p then "parameter" else "attribute") = .ok ())
    (hany : checkNoAnyOk t = true)
    (hp : p = true → c.is_module = true ∧ validParameterType t = true) :
    c.addAttribute n t p =
      ({ c with attributeNames := c.attributeNames ++ [n],
                attributeTypes := c.attributeTypes ++ [t],
                parameterSlots := c.parameterSlots.map (fun ps => ps ++ [p]) },
       .ok c.attributeNames.length) := by
  cases hps : c.parameterSlots with
  | none =>
    cases p with
    | false =>
      simp only [if_neg Bool.false_ne_true] at hk
      simp [ClassType.addAttribute, hk, hany, ClassType.is_module, hps]
    | true =>
      obtain ⟨hm, _⟩ := hp rfl
      simp [ClassType.is_module, hps] at hm
  | some ps =>
    cases p with
    | false =>
      simp only [if_neg Bool.false_ne_true] at hk
      simp [ClassType.addAttribute, hk, hany, ClassType.is_module, hps]
    | true =>
      obtain ⟨_, hv⟩ := hp rfl
      simp at hk
      simp [ClassType.addAttribute, hk, hany, ClassType.is_module, hps, hv]

theorem addAttribute_error_state (c : ClassType) (n : String) (t : Ty)
    (p : Bool) (e : AddError) (h : (c.addAttribute n t p).2 = .error e) :
    (c.addAttribute n t p).1 =
      if e.preAppend then c
      else { c with attributeNames := c.attributeNames ++ [n],
                    attributeTypes := c.attributeTypes ++ [t] } := by
  rcases addAttribute_pair c n t p with ⟨e1, hpre, heq⟩ | ⟨e1, hpre, _, heq⟩ | heq
  · rw [heq] at h ⊢
    simp only [Except.error.injEq] at h
    subst h
    simp [hpre]
  · rw [heq] at h ⊢
    simp only [Except.error.injEq] at h
    subst h
    simp [hpre]
  · rw [heq] at h
    simp at h

/-! ## Claims -/

/-- C4: a non-module class type is never a subtype of a module-flagged
interface, whatever its methods: the check returns `false` and the single
diagnostic is the only-a-module-class-can-satisfy-a-module-interface
message. -/
theorem nonmodule_class_not_subtype_of_module_interface
    (c : ClassType) (schemaSub : SchemaSub) (iface : InterfaceType)
    (hc : c.is_module = false) (hi : iface.is_module = true) :
    c.isSubtypeOfExt schemaSub iface = (false, [Diag.notModuleInterface]) := by
  simp [ClassType.isSubtypeOfExt, hc, hi]

/-- Witness for C4: a plain class with a compatible method still fails
against an empty module interface. -/
theorem nonmodule_class_not_subtype_of_module_interface_witness :
    ClassType.isSubtypeOfExt
        { qualifiedName := some "P", parameterSlots := none,
          attributeNames := [], attributeTypes := [],
          constantNames := [], constantValues := [],
          methods := [{ name := "a", schema := { name := "a", sig := 0 } }] }
        (fun s t => s == t)
        { name := "IM", methodSchemas := [{ name := "a", sig := 0 }],
          is_module := true } =
      (false, [Diag.notModuleInterface]) :=
  nonmodule_class_not_subtype_of_module_interface _ _ _ rfl rfl

/-- C2 counterexample: the class `P` is missing both required methods `a` and
`b` of the interface `I`, yet the accumulated diagnostics name only `a` — the
check stops at the first mismatch, so the diagnostic text does not name every
missing method. -/
theorem diagnostics_name_every_missing_method_counterexample :
    (ClassType.isSubtypeOfExt
        ⟨some "P", none, [], [], [], [], []⟩ (fun s t => s == t)
        ⟨"I", [⟨"a", 0⟩, ⟨"b", 0⟩], false⟩).1 = false ∧
    ClassType.requiredOk ⟨some "P", none, [], [], [], [], []⟩
      (fun s t => s == t) ⟨"b", 0⟩ = false ∧
    (ClassType.isSubtypeOfExt
        ⟨some "P", none, [], [], [], [], []⟩ (fun s t => s == t)
        ⟨"I", [⟨"a", 0⟩, ⟨"b", 0⟩], false⟩).2 = [Diag.missingMethod "a"] ∧
    ((ClassType.isSubtypeOfExt
        ⟨some "P", none, [], [], [], [], []⟩ (fun s t => s == t)
        ⟨"I", [⟨"a", 0⟩, ⟨"b", 0⟩], false⟩).2.all
      (fun d => !(d.mentions "b"))) = true := by
  refine ⟨rfl, rfl, rfl, rfl⟩

/-- C2 (amended): past the module-flag rule, the diagnostics accumulated by a
failing interface check name exactly the *first* required method (in
interface order) that is missing or signature-incompatible — one diagnostic
entry, not one per mismatching method (and no entry when the check
succeeds). -/
theorem isSubtypeOfExt_diagnostics_first_mismatch
    (c : ClassType) (schemaSub : SchemaSub) (iface : InterfaceType)
    (hm : c.is_module = true ∨ iface.is_module = false) :
    (c.isSubtypeOfExt schemaSub iface).2 =
      (Option.map (mismatchDiag c)
        (iface.methodSchemas.find?
          (fun s => !(c.requiredOk schemaSub s)))).toList := by
  have hflag : (!c.is_module && iface.is_module) = false := by
    rcases hm with h | h <;> simp [h]
  simp [ClassType.isSubtypeOfExt, hflag, subtypeLoop_snd]

/-- Witness for the amended C2 at a class missing both required methods. -/
theorem isSubtypeOfExt_diagnostics_first_mismatch_witness :
    (ClassType.isSubtypeOfExt
        ⟨some "P", none, [], [], [], [], []⟩ (fun s t => s == t)
        ⟨"I", [⟨"a", 0⟩, ⟨"b", 0⟩], false⟩).2 = [Diag.missingMethod "a"] := by
  have h := isSubtypeOfExt_diagnostics_first_mismatch
    ⟨some "P", none, [], [], [], [], []⟩ (fun s t => s == t)
    ⟨"I", [⟨"a", 0⟩, ⟨"b", 0⟩], false⟩ (Or.inr rfl)
  exact h.trans (by decide)

/-- C1 counterexample: on a module-flagged class, `addAttribute` with
`isParameter = true` and a non-tensor parameter type fails, yet the attribute
name/type sequences were already appended to before the failure — the failing
add is not a no-op on the sequences. -/
theorem add_failure_leaves_type_unmodified_counterexample :
    ((ClassType.create (some "M") true).addAttribute "w" Ty.intTy true).2 =
      Except.error (AddError.badParameterType Ty.intTy) ∧
    ((ClassType.create (some "M") true).addAttribute "w" Ty.intTy
        true).1.attributeNames = ["w"] ∧
    (ClassType.create (some "M") true).attributeNames = [] :=
  ⟨rfl, rfl, rfl⟩

/-- C1 (amended): `addConstant` and `addMethod` leave the class type exactly
as it was whenever they fail, and so does `addAttribute` when it fails the
uniqueness or Any-type check (the checks that precede the appends); but an
`addAttribute` failing the `is_parameter` module or parameter-type check
(raised only after the appends) leaves `attributeNames` and `attributeTypes`
with the new entry appended, all other sequences unchanged. -/
theorem add_failure_state :
    (∀ (c : ClassType) (n : String) (v : IValue) (e : AddError),
      (c.addConstant n v).2 = .error e → (c.addConstant n v).1 = c) ∧
    (∀ (c : ClassType) (m : Function) (e : AddError),
      (c.addMethod m).2 = .error e → (c.addMethod m).1 = c) ∧
    (∀ (c : ClassType) (n : String) (t : Ty) (p : Bool) (e : AddError),
      (c.addAttribute n t p).2 = .error e →
        (c.addAttribute n t p).1 =
          if e.preAppend then c
          else { c with attributeNames := c.attributeNames ++ [n],
                        attributeTypes := c.attributeTypes ++ [t] }) :=
  ⟨addConstant_error_state, addMethod_error_state, addAttribute_error_state⟩

/-- Witness for the amended C1: the failing parameter add of the C1
counterexample leaves exactly the two appended sequences behind. -/
theorem add_failure_state_witness :
    ((ClassType.create (some "M") true).addAttribute "w" Ty.intTy true).1 =
      { qualifiedName := some "M", parameterSlots := some [],
        attributeNames := ["w"], attributeTypes := [Ty.intTy],
        constantNames := [], constantValues := [], methods := [] } := by
  have h := add_failure_state.2.2 (ClassType.create (some "M") true)
    "w" Ty.intTy true (AddError.badParameterType Ty.intTy) rfl
  exact h.trans (by decide)

/-- C3 counterexample: after the failing parameter add on a module-flagged
class, the attribute name/type sequences have length 1 while `parameterSlots`
is still empty — the claimed length equality does not survive this failing
mutation. -/
theorem lengths_after_every_mutation_counterexample :
    ((ClassType.create (some "M") true).addAttribute "w" Ty.intTy
        true).1.is_module = true ∧
    ((ClassType.create (some "M") true).addAttribute "w" Ty.intTy
        true).1.attributeNames.length = 1 ∧
    ((ClassType.create (some "M") true).addAttribute "w" Ty.intTy
        true).1.attributeTypes.length = 1 ∧
    ((ClassType.create (some "M") true).addAttribute "w" Ty.intTy
        true).1.parameterSlots = some [] :=
  ⟨rfl, rfl, rfl, rfl⟩

/-- C3 (amended): every mutation — succeeding or failing — preserves
`numAttributes = attributeNames.length = attributeTypes.length` and
`constantNames.length = constantValues.length`; the full invariant including
the `parameterSlots` length also survives every mutation except the one
partial-append failure, a module-flagged `addAttribute` rejecting the
parameter type after the appends. -/
theorem mutation_preserves_lengths (c : ClassType) (op : Op)
    (h : c.lengthsOk) :
    (applyOp c op).namesTypesOk ∧
      (opPartialFailure c op = false → (applyOp c op).lengthsOk) := by
  obtain ⟨h1, h2, h3, h4⟩ := h
  cases op with
  | addConst n v =>
    cases hk : c.checkNotExist n "constant" with
    | error e =>
      have hstate : (c.addConstant n v).1 = c := by
        simp [ClassType.addConstant, hk]
      simp only [applyOp, hstate, opPartialFailure]
      exact ⟨⟨h2, h4⟩, fun _ => ⟨h1, h2, h3, h4⟩⟩
    | ok u =>
      cases u
      have hstate : (c.addConstant n v).1 =
          { c with constantNames := c.constantNames ++ [n],
                   constantValues := c.constantValues ++ [v] } := by
        simp [ClassType.addConstant, hk]
      simp only [applyOp, hstate, opPartialFailure]
      exact ⟨⟨h2, by simp [h4]⟩, fun _ => ⟨h1, h2, h3, by simp [h4]⟩⟩
  | addMeth m =>
    cases hg : c.getMethod m.name with
    | some f =>
      have hstate : (c.addMethod m).1 = c := by simp [ClassType.addMethod, hg]
      simp only [applyOp, hstate, opPartialFailure]
      exact ⟨⟨h2, h4⟩, fun _ => ⟨h1, h2, h3, h4⟩⟩
    | none =>
      have hstate : (c.addMethod m).1 =
          { c with methods := c.methods ++ [m] } := by
        simp [ClassType.addMethod, hg]
      simp only [applyOp, hstate, opPartialFailure]
      exact ⟨⟨h2, h4⟩, fun _ => ⟨h1, h2, h3, h4⟩⟩
  | removeAttr n =>
    cases hf : c.getAttributeSlot n with
    | none =>
      simp only [applyOp, ClassType.unsafeRemoveAttribute, hf, Option.getD,
        opPartialFailure]
      exact ⟨⟨h2, h4⟩, fun _ => ⟨h1, h2, h3, h4⟩⟩
    | some k =>
      have hk : k < c.attributeNames.length := by
        rw [ClassType.getAttributeSlot] at hf
        exact (List.findIdx?_eq_some_iff_findIdx_eq.mp hf).1
      have hk2 : k < c.attributeTypes.length := h2 ▸ hk
      have hstate : (c.unsafeRemoveAttribute n).getD c =
          { c with attributeNames := c.attributeNames.eraseIdx k,
                   attributeTypes := c.attributeTypes.eraseIdx k,
                   parameterSlots :=
                     if c.is_module then
                       c.parameterSlots.map (fun ps => ps.eraseIdx k)
                     else c.parameterSlots } := by
        simp [ClassType.unsafeRemoveAttribute, hf]
      simp only [applyOp, hstate, opPartialFailure]
      have hlen : (c.attributeNames.eraseIdx k).length =
          (c.attributeTypes.eraseIdx k).length := by
        rw [List.length_eraseIdx_of_lt hk, List.length_eraseIdx_of_lt hk2, h2]
      refine ⟨⟨hlen, h4⟩, fun _ => ⟨rfl, hlen, ?_, h4⟩⟩
      cases hps : c.parameterSlots with
      | none => simp [ClassType.slotsLenOk, ClassType.is_module, hps]
      | some ps =>
        have h3' : ps.length = c.attributeNames.length := by
          simpa [ClassType.slotsLenOk, hps] using h3
        have hk3 : k < ps.length := h3' ▸ hk
        simp [ClassType.slotsLenOk, ClassType.is_module, hps,
          List.length_eraseIdx_of_lt hk, List.length_eraseIdx_of_lt hk3, h3']
  | removeConst n =>
    cases hf : c.getConstantSlot n with
    | none =>
      simp only [applyOp, ClassType.unsafeRemoveConstant, hf, Option.getD,
        opPartialFailure]
      exact ⟨⟨h2, h4⟩, fun _ => ⟨h1, h2, h3, h4⟩⟩
    | some k =>
      have hk : k < c.constantNames.length := by
        rw [ClassType.getConstantSlot] at hf
        exact (List.findIdx?_eq_some_iff_findIdx_eq.mp hf).1
      have hk2 : k < c.constantValues.length := h4 ▸ hk
      have hstate : (c.unsafeRemoveConstant n).getD c =
          { c with constantNames := c.constantNames.eraseIdx k,
                   constantValues := c.constantValues.eraseIdx k } := by
        simp [ClassType.unsafeRemoveConstant, hf]
      simp only [applyOp, hstate, opPartialFailure]
      have hlen : (c.constantNames.eraseIdx k).length =
          (c.constantValues.eraseIdx k).length := by
        rw [List.length_eraseIdx_of_lt hk, List.length_eraseIdx_of_lt hk2, h4]
      exact ⟨⟨h2, hlen⟩, fun _ => ⟨h1, h2, h3, hlen⟩⟩
  | addAttr n t p =>
    rcases addAttribute_pair c n t p with
      ⟨e, hpre, heq⟩ | ⟨e, hpre, hcase, heq⟩ | heq
    · simp only [applyOp, heq]
      exact ⟨⟨h2, h4⟩, fun _ => ⟨h1, h2, h3, h4⟩⟩
    · simp only [applyOp, heq]
      refine ⟨⟨by simp [h2], h4⟩, ?_⟩
      intro hnf
      rcases hcase with ⟨he, hmod⟩ | he
      · subst he
        refine ⟨rfl, by simp [h2], ?_, h4⟩
        cases hps : c.parameterSlots with
        | none => simp [ClassType.slotsLenOk, hps]
        | some ps => simp [ClassType.is_module, hps] at hmod
      · subst he
        exfalso
        simp [opPartialFailure, heq] at hnf
    · simp only [applyOp, heq]
      refine ⟨⟨by simp [h2], h4⟩, fun _ => ⟨rfl, by simp [h2], ?_, h4⟩⟩
      cases hps : c.parameterSlots with
      | none => simp [ClassType.slotsLenOk, hps]
      | some ps =>
        have h3' : ps.length = c.attributeNames.length := by
          simpa [ClassType.slotsLenOk, hps] using h3
        simp [ClassType.slotsLenOk, hps, h3']

/-- Witness for the amended C3: a successful parameter add on a fresh module
class keeps all the length invariants. -/
theorem mutation_preserves_lengths_witness :
    (applyOp (ClassType.create (some "M") true)
        (Op.addAttr "w" Ty.tensor true)).lengthsOk :=
  (mutation_preserves_lengths (ClassType.create (some "M") true)
    (Op.addAttr "w" Ty.tensor true) ⟨rfl, rfl, rfl, rfl⟩).2 rfl

/-- C5: past the module-flag rule, the interface check succeeds exactly when
every required schema has a same-named method on the class whose schema is a
subtype of it; an empty requirement list is trivially satisfied and extra
methods on the class are irrelevant (the right-hand side only consults the
required schemas). -/
theorem isSubtypeOfExt_true_iff_all_required
    (c : ClassType) (schemaSub : SchemaSub) (iface : InterfaceType)
    (hm : c.is_module = true ∨ iface.is_module = false) :
    (c.isSubtypeOfExt schemaSub iface).1 = true ↔
      ∀ s ∈ iface.methodSchemas, c.requiredOk schemaSub s = true := by
  have hflag : (!c.is_module && iface.is_module) = false := by
    rcases hm with h | h <;> simp [h]
  simp [ClassType.isSubtypeOfExt, hflag, subtypeLoop_fst, List.all_eq_true]

/-- Witness for C5: a class whose two methods include the single required
one (plus an extra method) satisfies the interface. -/
theorem isSubtypeOfExt_true_iff_all_required_witness :
    (ClassType.isSubtypeOfExt
        { qualifiedName := some "Square", parameterSlots := none,
          attributeNames := [], attributeTypes := [],
          constantNames := [], constantValues := [],
          methods := [{ name := "area", schema := { name := "area", sig := 1 } },
                      { name := "extra", schema := { name := "extra", sig := 2 } }] }
        (fun s t => s == t)
        { name := "Shaped", methodSchemas := [{ name := "area", sig := 1 }],
          is_module := false }).1 = true :=
  (isSubtypeOfExt_true_iff_all_required _ _ _ (Or.inr rfl)).mpr (by decide)

/-- C6: attributes and constants share one name namespace.  Two distinct
fresh names can be added as an attribute and a constant in either order;
adding a constant under an existing attribute's name, or an attribute under
an existing constant's name (or any add reusing a name already in either
table), fails with a name-conflict error describing the existing entry. -/
theorem attribute_constant_one_namespace :
    (∀ (c : ClassType) (n1 n2 : String) (t : Ty) (v : IValue),
      n1 ≠ n2 →
      n1 ∉ c.constantNames → n1 ∉ c.attributeNames →
      n2 ∉ c.constantNames → n2 ∉ c.attributeNames →
      checkNoAnyOk t = true →
      (c.addAttribute n1 t false).2 = .ok c.numAttributes ∧
      ((c.addAttribute n1 t false).1.addConstant n2 v).2 =
        .ok c.constantNames.length ∧
      (c.addConstant n2 v).2 = .ok c.constantNames.length ∧
      ((c.addConstant n2 v).1.addAttribute n1 t false).2 =
        .ok c.numAttributes) ∧
    (∀ (c : ClassType) (n : String) (t : Ty) (p : Bool) (v : IValue),
      c.attributeNames.length = c.attributeTypes.length →
      n ∉ c.constantNames → n ∈ c.attributeNames →
      ∃ ty, (n, ty) ∈ c.attributeNames.zip c.attributeTypes ∧
        (c.addConstant n v).2 =
          .error (.nameConflictAttribute "constant" n ty) ∧
        (c.addAttribute n t p).2 =
          .error (.nameConflictAttribute
            (if p then "parameter" else "attribute") n ty)) ∧
    (∀ (c : ClassType) (n : String) (t : Ty) (p : Bool) (v : IValue),
      c.constantNames.length = c.constantValues.length →
      n ∈ c.constantNames →
      ∃ w, (n, w) ∈ c.constantNames.zip c.constantValues ∧
        (c.addConstant n v).2 =
          .error (.nameConflictConstant "constant" n w) ∧
        (c.addAttribute n t p).2 =
          .error (.nameConflictConstant
            (if p then "parameter" else "attribute") n w)) := by
  refine ⟨?_, ?_, ?_⟩
  · intro c n1 n2 t v h12 h1c h1a h2c h2a ht
    have hk1 : c.checkNotExist n1 "attribute" = .ok () :=
      checkNotExist_ok c n1 "attribute" h1c h1a
    have ha1 := addAttribute_ok c n1 t false (by simpa using hk1) ht
      (fun h => nomatch h)
    have hstate1 : (c.addAttribute n1 t false).1 =
        { c with attributeNames := c.attributeNames ++ [n1],
                 attributeTypes := c.attributeTypes ++ [t],
                 parameterSlots := c.parameterSlots.map (fun ps => ps ++ [false]) } := by
      rw [ha1]
    have hc2 := addConstant_ok c n2 v h2c h2a
    have hstate2 : (c.addConstant n2 v).1 =
        { c with constantNames := c.constantNames ++ [n2],
                 constantValues := c.constantValues ++ [v] } := by
      rw [hc2]
    refine ⟨by simp [ha1, ClassType.numAttributes], ?_,
      by simp [hc2], ?_⟩
    · have hcn : n2 ∉ ((c.addAttribute n1 t false).1).constantNames := by
        rw [hstate1]; exact h2c
      have han : n2 ∉ ((c.addAttribute n1 t false).1).attributeNames := by
        rw [hstate1]
        simp only [List.mem_append, List.mem_singleton, not_or]
        exact ⟨h2a, fun he => h12 he.symm⟩
      rw [addConstant_ok _ n2 v hcn han, hstate1]
    · have hcn : n1 ∉ ((c.addConstant n2 v).1).constantNames := by
        rw [hstate2]
        simp only [List.mem_append, List.mem_singleton, not_or]
        exact ⟨h1c, h12⟩
      have han : n1 ∉ ((c.addConstant n2 v).1).attributeNames := by
        rw [hstate2]; exact h1a
      have hk1' := checkNotExist_ok ((c.addConstant n2 v).1) n1 "attribute"
        hcn han
      rw [addAttribute_ok _ n1 t false (by simpa using hk1') ht
        (fun h => nomatch h), hstate2]
      exact rfl
  · intro c n t p v hlen hnc hna
    obtain ⟨ty, hfc, hmem⟩ := findConflict_eq_some_of_mem hlen hna
    have hk0 : ∀ what, c.checkNotExist n what =
        .error (.nameConflictAttribute what n ty) := by
      intro what
      unfold ClassType.checkNotExist
      rw [findConflict_eq_none_of_not_mem _ _ _ hnc, hfc]
    refine ⟨ty, hmem, ?_, ?_⟩
    · simp [ClassType.addConstant, hk0 "constant"]
    · simp [ClassType.addAttribute, hk0]
  · intro c n t p v hlen hnc
    obtain ⟨w, hfc, hmem⟩ := findConflict_eq_some_of_mem hlen hnc
    have hk0 : ∀ what, c.checkNotExist n what =
        .error (.nameConflictConstant what n w) := by
      intro what
      unfold ClassType.checkNotExist
      rw [hfc]
    refine ⟨w, hmem, ?_, ?_⟩
    · simp [ClassType.addConstant, hk0 "constant"]
    · simp [ClassType.addAttribute, hk0]

/-- Witness for C6: on a fresh class, attribute `x` then constant `y` (and
the reverse order) both succeed. -/
theorem attribute_constant_one_namespace_witness :
    ((ClassType.create (some "P") false).addAttribute "x" Ty.intTy false).2 =
      Except.ok 0 ∧
    (((ClassType.create (some "P") false).addAttribute "x" Ty.intTy
        false).1.addConstant "y" (IValue.int 1)).2 = Except.ok 0 ∧
    ((ClassType.create (some "P") false).addConstant "y" (IValue.int 1)).2 =
      Except.ok 0 ∧
    (((ClassType.create (some "P") false).addConstant "y"
        (IValue.int 1)).1.addAttribute "x" Ty.intTy false).2 = Except.ok 0 :=
  attribute_constant_one_namespace.1 (ClassType.create (some "P") false)
    "x" "y" Ty.intTy (IValue.int 1) (by decide) (by decide) (by decide)
    (by decide) (by decide) rfl

/-- C7: a successful `addAttribute` returns the attribute count before the
call, and `unsafeRemoveAttribute` of the attribute at slot `k` erases index
`k` from every parallel attribute sequence, so every attribute formerly at a
slot above `k` is afterwards found at its former slot minus one. -/
theorem addAttribute_slot_and_remove_renumbering :
    (∀ (c : ClassType) (n : String) (t : Ty) (p : Bool) (s : Nat),
      (c.addAttribute n t p).2 = .ok s → s = c.numAttributes) ∧
    (∀ (c : ClassType) (name : String) (k : Nat) (c' : ClassType),
      c.getAttributeSlot name = some k →
      c.unsafeRemoveAttribute name = some c' →
      c'.attributeNames = c.attributeNames.eraseIdx k ∧
      c'.attributeTypes = c.attributeTypes.eraseIdx k ∧
      (∀ ps, c.parameterSlots = some ps →
        c'.parameterSlots = some (ps.eraseIdx k)) ∧
      (∀ j (hj1 : j < c'.attributeNames.length)
          (hj2 : j + 1 < c.attributeNames.length), k ≤ j →
        c'.attributeNames.get ⟨j, hj1⟩ =
          c.attributeNames.get ⟨j + 1, hj2⟩) ∧
      (∀ j (hj1 : j < c'.attributeTypes.length)
          (hj2 : j + 1 < c.attributeTypes.length), k ≤ j →
        c'.attributeTypes.get ⟨j, hj1⟩ =
          c.attributeTypes.get ⟨j + 1, hj2⟩)) := by
  constructor
  · intro c n t p s h
    rcases addAttribute_pair c n t p with
      ⟨e, _, heq⟩ | ⟨e, _, _, heq⟩ | heq
    · rw [heq] at h; simp at h
    · rw [heq] at h; simp at h
    · rw [heq] at h
      simp only [Except.ok.injEq] at h
      exact h.symm
  · intro c name k c' hf hrm
    rw [ClassType.unsafeRemoveAttribute, hf] at hrm
    simp only [Option.some.injEq] at hrm
    subst hrm
    refine ⟨rfl, rfl, ?_, ?_, ?_⟩
    · intro ps hps
      simp [ClassType.is_module, hps]
    · intro j hj1 hj2 hkj
      simp only [List.get_eq_getElem]
      exact List.getElem_eraseIdx_of_ge c.attributeNames k j
        (by simpa using hj1) hkj
    · intro j hj1 hj2 hkj
      simp only [List.get_eq_getElem]
      exact List.getElem_eraseIdx_of_ge c.attributeTypes k j
        (by simpa using hj1) hkj

/-- Witness for C7: removing the slot-0 attribute `a` from a three-attribute
class leaves `b` and `c` shifted down one slot. -/
theorem addAttribute_slot_and_remove_renumbering_witness :
    (({ qualifiedName := some "P", parameterSlots := none,
        attributeNames := ["b", "cc"],
        attributeTypes := [Ty.intTy, Ty.floatTy],
        constantNames := [], constantValues := [],
        methods := [] } : ClassType) : ClassType).attributeNames =
      (["a", "b", "cc"] : List String).eraseIdx 0 := by
  have h := (addAttribute_slot_and_remove_renumbering.2
    ({ qualifiedName := some "P", parameterSlots := none,
       attributeNames := ["a", "b", "cc"],
       attributeTypes := [Ty.tensor, Ty.intTy, Ty.floatTy],
       constantNames := [], constantValues := [],
       methods := [] } : ClassType) "a" 0
    ({ qualifiedName := some "P", parameterSlots := none,
       attributeNames := ["b", "cc"],
       attributeTypes := [Ty.intTy, Ty.floatTy],
       constantNames := [], constantValues := [],
       methods := [] } : ClassType) rfl (by decide))
  exact h.1

theorem tySubtypeOf_checkNoAny {r t : Ty} (h : tySubtypeOf r t = true)
    (ht : checkNoAnyOk t = true) : checkNoAnyOk r = true := by
  cases r with
  | anyTy =>
    exfalso
    simp only [tySubtypeOf, Bool.or_eq_true, beq_iff_eq, Bool.and_eq_true] at h
    rcases h with (h | h) | ⟨h, _⟩
    · rw [← h] at ht
      simp [checkNoAnyOk, Ty.kind] at ht
    · rw [h] at ht
      simp [checkNoAnyOk, Ty.kind] at ht
    · exact Ty.noConfusion h
  | tensor => rfl
  | optional e => rfl
  | noneTy => rfl
  | intTy => rfl
  | floatTy => rfl
  | cls s => rfl

theorem addAttribute_fst_parameterSlots (c : ClassType) (n : String) (t : Ty)
    (p : Bool) (h : c.parameterSlots = none) :
    ((c.addAttribute n t p).1).parameterSlots = none := by
  rcases addAttribute_pair c n t p with
    ⟨e, _, heq⟩ | ⟨e, _, _, heq⟩ | heq <;> rw [heq] <;> simp [h]

theorem refineLoop_parameterSlots (tySub : Ty → Ty → Bool)
    (ns : List String) :
    ∀ (tys ts : List Ty) (acc c' : ClassType),
      acc.parameterSlots = none →
      refineLoop tySub ns tys ts acc = some c' →
      c'.parameterSlots = none := by
  induction ns with
  | nil =>
    intro tys ts acc c' hn h
    cases tys with
    | nil =>
      cases ts with
      | nil =>
        simp only [refineLoop, Option.some.injEq] at h
        rw [← h]; exact hn
      | cons r rs => simp [refineLoop] at h
    | cons t tys => simp [refineLoop] at h
  | cons n ns ih =>
    intro tys ts acc c' hn h
    cases tys with
    | nil => simp [refineLoop] at h
    | cons t tys =>
      cases ts with
      | nil => simp [refineLoop] at h
      | cons r rs =>
        simp only [refineLoop] at h
        by_cases hs : tySub r t = true
        · rw [if_pos hs] at h
          cases ha : acc.addAttribute n r false with
          | mk acc1 res =>
            rw [ha] at h
            cases res with
            | ok s =>
              refine ih tys rs acc1 c' ?_ h
              have hh := addAttribute_fst_parameterSlots acc n r false hn
              rw [ha] at hh
              exact hh
            | error e => simp at h
        · rw [if_neg hs] at h
          simp at h

theorem refineLoop_sub (tySub : Ty → Ty → Bool) (ns : List String) :
    ∀ (tys ts : List Ty) (acc c' : ClassType),
      refineLoop tySub ns tys ts acc = some c' →
      ∀ pr ∈ tys.zip ts, tySub pr.2 pr.1 = true := by
  induction ns with
  | nil =>
    intro tys ts acc c' h
    cases tys with
    | nil => simp
    | cons t tys =>
      cases ts with
      | nil => simp
      | cons r rs => simp [refineLoop] at h
  | cons n ns ih =>
    intro tys ts acc c' h
    cases tys with
    | nil => simp
    | cons t tys =>
      cases ts with
      | nil => simp
      | cons r rs =>
        simp only [refineLoop] at h
        by_cases hs : tySub r t = true
        · rw [if_pos hs] at h
          intro pr hpr
          rcases List.mem_cons.mp (by simpa using hpr) with he | he
          · rw [he]; exact hs
          · cases ha : acc.addAttribute n r false with
            | mk acc1 res =>
              rw [ha] at h
              cases res with
              | ok s => exact ih tys rs acc1 c' h pr he
              | error e => simp at h
        · rw [if_neg hs] at h
          simp at h

theorem refineLoop_spec (ns : List String) :
    ∀ (tys ts : List Ty) (acc : ClassType),
      tys.length = ns.length → ts.length = ns.length →
      (acc.attributeNames ++ ns).Nodup →
      acc.constantNames = [] →
      acc.parameterSlots = none →
      (∀ pr ∈ tys.zip ts, tySubtypeOf pr.2 pr.1 = true) →
      (∀ ty ∈ tys, checkNoAnyOk ty = true) →
      ∃ c', refineLoop tySubtypeOf ns tys ts acc = some c' ∧
        c'.qualifiedName = acc.qualifiedName ∧
        c'.attributeNames = acc.attributeNames ++ ns ∧
        c'.attributeTypes = acc.attributeTypes ++ ts ∧
        c'.constantNames = [] ∧
        c'.constantValues = acc.constantValues ∧
        c'.parameterSlots = none ∧
        c'.methods = acc.methods := by
  induction ns with
  | nil =>
    intro tys ts acc hlt hls hnd hce hpe hsub hany
    cases tys with
    | cons t tys => simp at hlt
    | nil =>
      cases ts with
      | cons r rs => simp at hls
      | nil => exact ⟨acc, rfl, rfl, by simp, by simp, hce, rfl, hpe, rfl⟩
  | cons n ns ih =>
    intro tys ts acc hlt hls hnd hce hpe hsub hany
    cases tys with
    | nil => simp at hlt
    | cons t tys =>
      cases ts with
      | nil => simp at hls
      | cons r rs =>
        have hs0 : tySubtypeOf r t = true := hsub (t, r) (by simp)
        have hany0 : checkNoAnyOk r = true :=
          tySubtypeOf_checkNoAny hs0 (hany t (by simp))
        have hnmem : n ∉ acc.attributeNames := by
          intro hmem
          have := (List.nodup_append.mp hnd).2.2
          exact this hmem (by simp)
        have hkc : n ∉ acc.constantNames := by
          rw [hce]; exact List.not_mem_nil n
        have hk := checkNotExist_ok acc n "attribute" hkc hnmem
        have ha := addAttribute_ok acc n r false (by simpa using hk) hany0
          (fun hh => nomatch hh)
        simp only [refineLoop, if_pos hs0, ha]
        obtain ⟨c', hloop, hq, hn2, ht2, hc2, hv2, hp2, hm2⟩ :=
          ih tys rs
            { acc with attributeNames := acc.attributeNames ++ [n],
                       attributeTypes := acc.attributeTypes ++ [r],
                       parameterSlots :=
                         acc.parameterSlots.map (fun ps => ps ++ [false]) }
            (by simpa using hlt) (by simpa using hls)
            (by simpa [List.append_assoc] using hnd)
            (by simpa using hce) (by simp [hpe])
            (fun pr hpr => hsub pr (by simp; right; exact (by simpa using hpr)))
            (fun ty hty => hany ty (by simp [hty]))
        refine ⟨c', hloop, by simpa using hq, ?_, ?_, hc2, by simpa using hv2,
          hp2, by simpa using hm2⟩
        · rw [hn2]; simp
        · rw [ht2]; simp

theorem addMethodsLoop_parameterSlots (ms : List Function) :
    ∀ (acc c' : ClassType), acc.parameterSlots = none →
      addMethodsLoop acc ms = some c' → c'.parameterSlots = none := by
  induction ms with
  | nil =>
    intro acc c' hn h
    simp only [addMethodsLoop, Option.some.injEq] at h
    rw [← h]; exact hn
  | cons m ms ih =>
    intro acc c' hn h
    simp only [addMethodsLoop] at h
    cases hg : acc.getMethod m.name with
    | some f =>
      simp [ClassType.addMethod, hg] at h
    | none =>
      simp only [ClassType.addMethod, hg] at h
      exact ih { acc with methods := acc.methods ++ [m] } c' hn h

theorem addMethodsLoop_spec (ms : List Function) :
    ∀ (acc : ClassType),
      ((acc.methods ++ ms).map Function.name).Nodup →
      addMethodsLoop acc ms =
        some { acc with methods := acc.methods ++ ms } := by
  induction ms with
  | nil =>
    intro acc hnd
    simp only [addMethodsLoop, Option.some.injEq]
    simp
  | cons m ms ih =>
    intro acc hnd
    have hnmem : ∀ f ∈ acc.methods, f.name ≠ m.name := by
      intro f hf he
      have hdis := (List.nodup_append.mp (by simpa using hnd)).2.2
      exact hdis (List.mem_map.mpr ⟨f, hf, rfl⟩) (by simp [he])
    have hg : acc.getMethod m.name = none :=
      (getMethod_eq_none_iff acc m.name).mpr hnmem
    simp only [addMethodsLoop, ClassType.addMethod, hg]
    have := ih { acc with methods := acc.methods ++ [m] }
      (by simpa [List.append_assoc] using hnd)
    rw [this]
    congr 1
    simp

/-- C8: `refine` with a wrong-length replacement list is fatal (`none`); it
only succeeds when every replacement is a subtype of the corresponding
current attribute type; and on success the result keeps the qualified name,
the attribute count, the attribute names in order and the method sequence by
reference, with the attribute type at each slot replaced by `ts[i]`. -/
theorem refine_characterization (c : ClassType) (ts : List Ty)
    (hnodupA : c.attributeNames.Nodup)
    (hlenT : c.attributeNames.length = c.attributeTypes.length)
    (hnoany : ∀ ty ∈ c.attributeTypes, checkNoAnyOk ty = true)
    (hnodupM : (c.methods.map Function.name).Nodup) :
    (ts.length ≠ c.numAttributes → c.refine tySubtypeOf ts = none) ∧
    (∀ c', c.refine tySubtypeOf ts = some c' →
      ∀ pr ∈ c.attributeTypes.zip ts, tySubtypeOf pr.2 pr.1 = true) ∧
    (ts.length = c.numAttributes →
      (∀ pr ∈ c.attributeTypes.zip ts, tySubtypeOf pr.2 pr.1 = true) →
      ∃ c', c.refine tySubtypeOf ts = some c' ∧
        c'.qualifiedName = c.qualifiedName ∧
        c'.numAttributes = c.numAttributes ∧
        c'.attributeNames = c.attributeNames ∧
        c'.attributeTypes = ts ∧
        c'.methods = c.methods) := by
  refine ⟨?_, ?_, ?_⟩
  · intro hne
    have hb : (c.numAttributes == ts.length) = false :=
      beq_eq_false_iff_ne.mpr (fun he => hne he.symm)
    simp [ClassType.refine, hb]
  · intro c' h
    simp only [ClassType.refine] at h
    by_cases hb : (c.numAttributes == ts.length) = true
    · rw [if_pos hb] at h
      cases hloop : refineLoop tySubtypeOf c.attributeNames c.attributeTypes
          ts (ClassType.create c.qualifiedName false) with
      | none => rw [hloop] at h; simp at h
      | some p =>
        exact refineLoop_sub tySubtypeOf c.attributeNames c.attributeTypes
          ts _ p hloop
    · rw [if_neg hb] at h
      simp at h
  · intro hlen hsub
    obtain ⟨p, hloop, hq, hn2, ht2, hc2, hv2, hp2, hm2⟩ :=
      refineLoop_spec c.attributeNames c.attributeTypes ts
        (ClassType.create c.qualifiedName false)
        hlenT.symm hlen (by simpa [ClassType.create] using hnodupA)
        rfl rfl hsub hnoany
    have hmethods := addMethodsLoop_spec c.methods p
      (by rw [hm2]; simpa [ClassType.create] using hnodupM)
    refine ⟨{ p with methods := p.methods ++ c.methods }, ?_, ?_, ?_, ?_, ?_, ?_⟩
    · simp only [ClassType.refine, if_pos (beq_iff_eq.mpr hlen.symm)]
      rw [hloop]
      exact hmethods
    · exact hq
    · simp only [ClassType.numAttributes]
      rw [hn2]
      simp [ClassType.create]
    · rw [hn2]
      simp [ClassType.create]
    · rw [ht2]
      simp [ClassType.create]
    · rw [hm2]
      simp [ClassType.create]

/-- Witness for C8: refining a one-attribute class (type `Optional[Tensor]`,
one method) with the subtype replacement `NoneType` succeeds. -/
theorem refine_characterization_witness :
    ((⟨some "P", none, ["x"], [Ty.optional Ty.tensor], [], [],
        [⟨"m", ⟨"m", 0⟩⟩]⟩ : ClassType).refine tySubtypeOf
      [Ty.noneTy]).isSome = true := by
  obtain ⟨c', hc', -, -, -, -, -⟩ :=
    (refine_characterization
      ⟨some "P", none, ["x"], [Ty.optional Ty.tensor], [], [],
        [⟨"m", ⟨"m", 0⟩⟩]⟩
      [Ty.noneTy] (by decide) rfl (by decide) (by decide)).2.2 rfl (by decide)
  rw [hc']
  rfl

/-- C9: whatever subtype relation is plugged in, a successful `refine` of a
module-flagged class yields a class that is not module-flagged and has no
parameter-slot sequence at all — `refine` builds the fresh type without the
module flag, so every parameter marking of the receiver is lost. -/
theorem refine_result_not_module (c : ClassType) (tySub : Ty → Ty → Bool)
    (ts : List Ty) (c' : ClassType) (_hmod : c.is_module = true)
    (h : c.refine tySub ts = some c') :
    c'.is_module = false ∧ c'.parameterSlots = none := by
  simp only [ClassType.refine] at h
  by_cases hb : (c.numAttributes == ts.length) = true
  · rw [if_pos hb] at h
    cases hloop : refineLoop tySub c.attributeNames c.attributeTypes ts
        (ClassType.create c.qualifiedName false) with
    | none => rw [hloop] at h; simp at h
    | some p =>
      rw [hloop] at h
      have hp : p.parameterSlots = none :=
        refineLoop_parameterSlots tySub c.attributeNames c.attributeTypes
          ts _ p rfl hloop
      have hc : c'.parameterSlots = none :=
        addMethodsLoop_parameterSlots c.methods p c' hp h
      exact ⟨by simp [ClassType.is_module, hc], hc⟩
  · rw [if_neg hb] at h
    simp at h

/-- Witness for C9: refining a module class with one tensor parameter slot
yields the expected non-module class. -/
theorem refine_result_not_module_witness :
    ((⟨some "M", none, ["w"], [Ty.tensor], [], [], []⟩ : ClassType).is_module
        = false) ∧
    (⟨some "M", none, ["w"], [Ty.tensor], [], [], []⟩
        : ClassType).parameterSlots = none :=
  refine_result_not_module
    ⟨some "M", some [true], ["w"], [Ty.tensor], [], [], []⟩
    tySubtypeOf [Ty.tensor]
    ⟨some "M", none, ["w"], [Ty.tensor], [], [], []⟩ rfl (by decide)

/-- C10: method names live in a namespace independent of the attribute and
constant field namespace: `addMethod` succeeds exactly when no *method* of
that name exists (field names are never consulted), and the outcomes of
`addAttribute` / `addConstant` are unchanged under any replacement of the
method list (method names are never consulted by the field adds). -/
theorem method_namespace_independent :
    (∀ (c : ClassType) (m : Function),
      (c.addMethod m).2 = Except.ok () ↔ c.getMethod m.name = none) ∧
    (∀ (c : ClassType) (n : String) (t : Ty) (p : Bool) (ms : List Function),
      (({ c with methods := ms } : ClassType).addAttribute n t p).2 =
        (c.addAttribute n t p).2) ∧
    (∀ (c : ClassType) (n : String) (v : IValue) (ms : List Function),
      (({ c with methods := ms } : ClassType).addConstant n v).2 =
        (c.addConstant n v).2) ∧
    (∀ (c : ClassType) (m : Function) (ans : List String) (ats : List Ty)
        (cns : List String) (cvs : List IValue),
      (({ c with attributeNames := ans,
                 attributeTypes := ats,
                 constantNames := cns,
                 constantValues := cvs } : ClassType).addMethod m).2 =
        (c.addMethod m).2) := by
  refine ⟨?_, ?_, ?_, ?_⟩
  · intro c m
    cases hg : c.getMethod m.name with
    | some f => simp [ClassType.addMethod, hg]
    | none => simp [ClassType.addMethod, hg]
  · intro c n t p ms
    cases hfc : findConflict n c.constantNames c.constantValues with
    | some v =>
      simp [ClassType.addAttribute, ClassType.checkNotExist, hfc]
    | none =>
      cases hfa : findConflict n c.attributeNames c.attributeTypes with
      | some ty =>
        simp [ClassType.addAttribute, ClassType.checkNotExist, hfc, hfa]
      | none =>
        by_cases hany : checkNoAnyOk t = false
        · simp [ClassType.addAttribute, ClassType.checkNotExist, hfc, hfa,
            hany]
        · have hany2 : checkNoAnyOk t = true := by
            revert hany; cases checkNoAnyOk t <;> simp
          cases hps : c.parameterSlots with
          | none =>
            cases p <;>
              simp [ClassType.addAttribute, ClassType.checkNotExist, hfc,
                hfa, hany2, ClassType.is_module, hps]
          | some ps =>
            cases p with
            | false =>
              simp [ClassType.addAttribute, ClassType.checkNotExist, hfc,
                hfa, hany2, ClassType.is_module, hps]
            | true =>
              by_cases hv : validParameterType t = true
              · simp [ClassType.addAttribute, ClassType.checkNotExist, hfc,
                  hfa, hany2, ClassType.is_module, hps, hv]
              · simp [ClassType.addAttribute, ClassType.checkNotExist, hfc,
                  hfa, hany2, ClassType.is_module, hps, hv]
  · intro c n v ms
    cases hfc : findConflict n c.constantNames c.constantValues with
    | some w =>
      simp [ClassType.addConstant, ClassType.checkNotExist, hfc]
    | none =>
      cases hfa : findConflict n c.attributeNames c.attributeTypes with
      | some ty =>
        simp [ClassType.addConstant, ClassType.checkNotExist, hfc, hfa]
      | none =>
        simp [ClassType.addConstant, ClassType.checkNotExist, hfc, hfa]
  · intro c m ans ats cns cvs
    have hgm : ({ c with attributeNames := ans,
                         attributeTypes := ats,
                         constantNames := cns,
                         constantValues := cvs } : ClassType).getMethod
        m.name = c.getMethod m.name := rfl
    cases hg : c.getMethod m.name with
    | some f => simp [ClassType.addMethod, hg, hgm]
    | none => simp [ClassType.addMethod, hg, hgm]

/-- Witness for C10: adding a method named `dist` to a class that already has
an *attribute* named `dist` succeeds. -/
theorem method_namespace_independent_witness :
    ((⟨some "Point", none, ["dist"], [Ty.floatTy], [], [], []⟩
        : ClassType).addMethod ⟨"dist", ⟨"dist", 0⟩⟩).2 = Except.ok () :=
  (method_namespace_independent.1
    ⟨some "Point", none, ["dist"], [Ty.floatTy], [], [], []⟩
    ⟨"dist", ⟨"dist", 0⟩⟩).mpr rfl

end ClassTypeSpec
